import Mathlib

/-!
Verification of the feature-scaling policy of `src/featureScaling.py`.

The source file is a narrative report whose machine-readable content is six
constant assignments: five group-wide scaler-recipe strings
(`PRESSURE_SCALING`, `ADSORPTION_SCALING`, `PROXIMATE_SCALING`,
`MACERAL_SCALING`, `CORRELATION_SCALING`) and one per-column dictionary
(`PHYSICAL_SCALING`).  The lookup interface (`recipe_for`, `all_groups`) and
the policy table keyed by group name are declared by the specification but not
implemented in the source, so they are modelled from the spec below and
instantiated with the recipes taken from the source constants.
-/

namespace CBM

/-- `PRESSURE_SCALING = "log1p + RobustScaler"` (src/featureScaling.py:54). -/
def PRESSURE_SCALING : String := "log1p + RobustScaler"

/-- `ADSORPTION_SCALING = "StandardScaler"` (src/featureScaling.py:88). -/
def ADSORPTION_SCALING : String := "StandardScaler"

/-- `PHYSICAL_SCALING = {"Temperature": "StandardScaler", "Depth": "MinMaxScaler"}`
(src/featureScaling.py:119-122), a Python dict embedded as an association list
in insertion order. -/
def PHYSICAL_SCALING : List (String × String) :=
  [("Temperature", "StandardScaler"), ("Depth", "MinMaxScaler")]

/-- `PROXIMATE_SCALING = "MinMaxScaler"` (src/featureScaling.py:154). -/
def PROXIMATE_SCALING : String := "MinMaxScaler"

/-- `MACERAL_SCALING = "PowerTransformer (Yeo–Johnson) + RobustScaler"`
(src/featureScaling.py:193). -/
def MACERAL_SCALING : String := "PowerTransformer (Yeo–Johnson) + RobustScaler"

/-- `CORRELATION_SCALING = "MinMaxScaler"` (src/featureScaling.py:221). -/
def CORRELATION_SCALING : String := "MinMaxScaler"

/-- Splits a character stream at every occurrence of the separator `" + "`
used by the source recipe strings, accumulating the current step in `acc`
(in reverse).  This realises the reading of a recipe string such as
`"log1p + RobustScaler"` as an ordered sequence of named steps. -/
def splitSteps : List Char → List Char → List String
  | [], acc => [String.mk acc.reverse]
  | ' ' :: '+' :: ' ' :: rest, acc => String.mk acc.reverse :: splitSteps rest []
  | c :: rest, acc => splitSteps rest (c :: acc)

/-- Modelled from the spec: the serialized form in spec §6 writes each step
with a canonical snake_case name (`"robust_scale"`, `"standard_scale"`,
`"minmax_scale"`, `"yeo_johnson"`); this maps the scaler names appearing in
the source constants to those canonical step names. -/
def canonicalStep (s : String) : String :=
  if s = "RobustScaler" then "robust_scale"
  else if s = "StandardScaler" then "standard_scale"
  else if s = "MinMaxScaler" then "minmax_scale"
  else if s = "PowerTransformer (Yeo–Johnson)" then "yeo_johnson"
  else s

/-- The ordered sequence of canonical step names denoted by a source recipe
string: split on `" + "`, then canonicalise each step name. -/
def recipeSteps (s : String) : List String :=
  (splitSteps s.data []).map canonicalStep

/-- A `ScalingRecipe` is an ordered sequence of named transformation steps. -/
abbrev ScalingRecipe := List String

/-- A policy table: a finite mapping from feature-group name to its recipe,
in configuration order. -/
abbrev PolicyTable := List (String × ScalingRecipe)

/-- Modelled from the spec: the single error kind, `UnknownGroupError`,
raised when a lookup key has no configured recipe (spec §7). -/
inductive ScalingError where
  | UnknownGroupError
  deriving DecidableEq

/-- Modelled from the spec: `recipe_for(group_name)` returns the recipe
associated with a known group name and fails with `UnknownGroupError` when
the name is not among the configured groups (spec §4.1). -/
def recipe_for (table : PolicyTable) (group_name : String) :
    Except ScalingError ScalingRecipe :=
  match table.find? (fun p => p.1 == group_name) with
  | some p => Except.ok p.2
  | none => Except.error ScalingError.UnknownGroupError

/-- Modelled from the spec: `all_groups()` returns every configured group
name (spec §4.1); the underlying set is the list of table keys. -/
def all_groups (table : PolicyTable) : List String :=
  table.map Prod.fst

/-- Modelled from the spec: the scaling policy table.  The group names are
those of the spec's serialized form (§6); each group's recipe is the ordered
step sequence read from the corresponding source constant. -/
def policyTable : PolicyTable :=
  [ ("pressure", recipeSteps PRESSURE_SCALING),
    ("adsorption_volume", recipeSteps ADSORPTION_SCALING),
    ("proximate_analysis", recipeSteps PROXIMATE_SCALING),
    ("maceral_composition", recipeSteps MACERAL_SCALING),
    ("correlation_metric", recipeSteps CORRELATION_SCALING) ]

/-- The state visible to a lookup: the policy table itself.  The table is
constructed once and only read afterwards. -/
structure TableState where
  table : PolicyTable

/-- A lookup as a state transition: it returns the looked-up recipe together
with the post-state of the table. -/
def lookupCall (s : TableState) (g : String) :
    Except ScalingError ScalingRecipe × TableState :=
  (recipe_for s.table g, s)

/-- A step name that reduces skew: the log transform or the Yeo–Johnson
power transform. -/
def isSkewReducing (s : String) : Bool :=
  s == "log1p" || s == "yeo_johnson"

/-- The two-group table of the spec's concrete scenario (spec §8). -/
def twoGroupTable : PolicyTable :=
  [("pressure", ["log1p", "robust_scale"]),
   ("proximate_analysis", ["minmax_scale"])]

/-- Helper: `recipe_for` yields `UnknownGroupError` exactly on names outside
`all_groups`, for any table. -/
theorem recipe_for_error_iff (t : PolicyTable) (g : String) :
    recipe_for t g = Except.error ScalingError.UnknownGroupError ↔
      g ∉ all_groups t := by
  unfold recipe_for all_groups
  cases h : t.find? (fun p => p.1 == g) with
  | some p =>
      simp only [reduceCtorEq, false_iff, not_not]
      have hp : p ∈ t := List.mem_of_find?_eq_some h
      have hg : p.1 = g := by
        have := List.find?_some h
        exact eq_of_beq this
      exact List.mem_map.mpr ⟨p, hp, hg⟩
  | none =>
      simp only [true_iff]
      intro hmem
      obtain ⟨p, hp, hpg⟩ := List.mem_map.mp hmem
      have hnone := List.find?_eq_none.mp h p hp
      simp only [hpg, beq_self_eq_true, not_true_eq_false] at hnone

/-- Helper: the policy table evaluated, step strings split and canonicalised. -/
theorem policyTable_eval :
    policyTable =
      [ ("pressure", ["log1p", "robust_scale"]),
        ("adsorption_volume", ["standard_scale"]),
        ("proximate_analysis", ["minmax_scale"]),
        ("maceral_composition", ["yeo_johnson", "robust_scale"]),
        ("correlation_metric", ["minmax_scale"]) ] := by decide

/-- C1: for every group name in the set returned by `all_groups()`, the call
`recipe_for(name)` succeeds and returns a non-empty ordered sequence of
transformation-step names. -/
theorem recipe_for_succeeds_on_all_groups :
    ∀ g ∈ all_groups policyTable,
      ∃ r, recipe_for policyTable g = Except.ok r ∧ r ≠ [] := by
  intro g hg
  have hg5 : g = "pressure" ∨ g = "adsorption_volume" ∨ g = "proximate_analysis" ∨
      g = "maceral_composition" ∨ g = "correlation_metric" := by
    rw [policyTable_eval] at hg
    simpa [all_groups] using hg
  rcases hg5 with h | h | h | h | h <;> subst h <;> exact ⟨_, rfl, by decide⟩

/-- Witness for C1 at the concrete group name `"pressure"`. -/
theorem recipe_for_succeeds_on_all_groups_witness :
    ∃ r, recipe_for policyTable "pressure" = Except.ok r ∧ r ≠ [] :=
  recipe_for_succeeds_on_all_groups "pressure" (by decide)

/-- C2: `recipe_for` fails with `UnknownGroupError` exactly on names outside
the configured group names; in particular it fails on
`"nonexistent_group"`, with no silent default and no other error value. -/
theorem recipe_for_unknown_group_error_iff :
    (∀ g : String,
        recipe_for policyTable g = Except.error ScalingError.UnknownGroupError ↔
          g ∉ all_groups policyTable) ∧
      recipe_for policyTable "nonexistent_group" =
        Except.error ScalingError.UnknownGroupError :=
  ⟨fun g => recipe_for_error_iff policyTable g,
   (recipe_for_error_iff policyTable "nonexistent_group").mpr (by decide)⟩

/-- C3: the configured mapping is a total function over its declared domain:
the group names are pairwise distinct, and any two recipes configured for the
same group name are equal. -/
theorem policy_table_total_function :
    (all_groups policyTable).Nodup ∧
      ∀ g r₁ r₂, (g, r₁) ∈ policyTable → (g, r₂) ∈ policyTable → r₁ = r₂ := by
  constructor
  · decide
  · intro g r₁ r₂ h₁ h₂
    rw [policyTable_eval] at h₁ h₂
    simp only [List.mem_cons, List.not_mem_nil, or_false, Prod.mk.injEq] at h₁ h₂
    rcases h₁ with ⟨hg₁, hr₁⟩ | ⟨hg₁, hr₁⟩ | ⟨hg₁, hr₁⟩ | ⟨hg₁, hr₁⟩ | ⟨hg₁, hr₁⟩ <;>
      rcases h₂ with ⟨hg₂, hr₂⟩ | ⟨hg₂, hr₂⟩ | ⟨hg₂, hr₂⟩ | ⟨hg₂, hr₂⟩ | ⟨hg₂, hr₂⟩ <;>
      subst hg₁ <;> subst hr₁ <;> subst hr₂ <;> simp_all

/-- Witness for C3 at the concrete group `"pressure"`. -/
theorem policy_table_total_function_witness :
    (["log1p", "robust_scale"] : ScalingRecipe) = ["log1p", "robust_scale"] :=
  policy_table_total_function.2 "pressure" ["log1p", "robust_scale"]
    ["log1p", "robust_scale"] (by decide) (by decide)

/-- C4: recipe order is preserved exactly as configured:
`recipe_for("pressure")` is `["log1p", "robust_scale"]`, not
`["robust_scale", "log1p"]`. -/
theorem pressure_recipe_order :
    recipe_for policyTable "pressure" = Except.ok ["log1p", "robust_scale"] ∧
      recipe_for policyTable "pressure" ≠ Except.ok ["robust_scale", "log1p"] := by
  refine ⟨rfl, fun h => ?_⟩
  exact absurd (Except.ok.inj h) (by decide)

/-- C5: the configured policy table, serialized as a mapping from group name
to ordered list of step names, holds exactly the five groups of spec §6 with
exactly the listed step sequences. -/
theorem policy_table_serialized_contents :
    policyTable =
      [ ("pressure", ["log1p", "robust_scale"]),
        ("adsorption_volume", ["standard_scale"]),
        ("proximate_analysis", ["minmax_scale"]),
        ("maceral_composition", ["yeo_johnson", "robust_scale"]),
        ("correlation_metric", ["minmax_scale"]) ] := by decide

/-- C6: in every configured multi-step recipe the skew-reducing transform
(`log1p` or Yeo–Johnson) precedes the rescaling step (`robust_scale`), never
the reverse. -/
theorem skew_reduction_precedes_rescaling :
    ∀ p ∈ policyTable, 2 ≤ p.2.length →
      ∃ s, isSkewReducing s = true ∧ p.2 = [s, "robust_scale"] := by
  intro p hp hlen
  rw [policyTable_eval] at hp
  simp only [List.mem_cons, List.not_mem_nil, or_false] at hp
  rcases hp with h | h | h | h | h <;> subst h <;>
    first
      | exact ⟨"log1p", by decide, rfl⟩
      | exact ⟨"yeo_johnson", by decide, rfl⟩
      | exact absurd hlen (by decide)

/-- Witness for C6 at the pressure entry of the policy table. -/
theorem skew_reduction_precedes_rescaling_witness :
    ∃ s, isSkewReducing s = true ∧
      (("pressure", ["log1p", "robust_scale"]) : String × ScalingRecipe).2 =
        [s, "robust_scale"] :=
  skew_reduction_precedes_rescaling ("pressure", ["log1p", "robust_scale"])
    (by decide) (by decide)

/-- C7: lookup is deterministic and side-effect-free: a lookup leaves the
table state unchanged, and a second lookup of the same name after a first one
returns an equal result. -/
theorem lookup_pure_and_idempotent :
    ∀ (s : TableState) (g : String),
      (lookupCall s g).2 = s ∧
        (lookupCall ((lookupCall s g).2) g).1 = (lookupCall s g).1 :=
  fun _ _ => ⟨rfl, rfl⟩

/-- C8: for the Temperature/Depth physical-control group, exactly one scaler
choice per column is recorded explicitly: the column keys are distinct and
Depth is committed to the single scaler MinMaxScaler. -/
theorem physical_one_scaler_per_column :
    (PHYSICAL_SCALING.map Prod.fst).Nodup ∧
      PHYSICAL_SCALING.lookup "Temperature" = some "StandardScaler" ∧
      PHYSICAL_SCALING.lookup "Depth" = some "MinMaxScaler" := by decide

/-- C9: on the two-group table of the spec's concrete scenario, `all_groups`
returns exactly the set `\x7b"pressure", "proximate_analysis"\x7d` and
`recipe_for("proximate_analysis")` returns `["minmax_scale"]`. -/
theorem two_group_scenario :
    all_groups twoGroupTable = ["pressure", "proximate_analysis"] ∧
      (∀ g, g ∈ all_groups twoGroupTable ↔
        (g = "pressure" ∨ g = "proximate_analysis")) ∧
      recipe_for twoGroupTable "proximate_analysis" =
        Except.ok ["minmax_scale"] := by
  refine ⟨rfl, fun g => ?_, rfl⟩
  simp [all_groups, twoGroupTable]

/-- C10: `PHYSICAL_SCALING` is a dictionary with exactly the keys
`"Temperature"` and `"Depth"`, mapping Temperature to StandardScaler and
Depth to MinMaxScaler: two distinct single-step scalers configured per
column. -/
theorem physical_scaling_dict_structure :
    PHYSICAL_SCALING = [("Temperature", "StandardScaler"), ("Depth", "MinMaxScaler")] ∧
      PHYSICAL_SCALING.lookup "Temperature" ≠ PHYSICAL_SCALING.lookup "Depth" ∧
      PHYSICAL_SCALING.all (fun p => (recipeSteps p.2).length == 1) = true := by
  decide

end CBM
